import Mathlib

/-!
Shallow embedding of `deep_q_learning.py` (class `DQNAgent`) and proofs of the
specification's claims about it.

Modelling conventions:
* Python floats are modelled as rationals (`ℚ`); states and per-action
  q-value vectors are `List ℚ`.
* The two Keras models are opaque function approximators: a weight type `W`
  together with functions `predict : W → List ℚ → List ℚ` and
  `fit : W → List (List ℚ) → List (List ℚ) → W` given as parameters.
* Randomness is passed in explicitly: the uniform draw of
  `random.uniform(0, 1)`, the action of `env.action_space.sample()`, and the
  index choices consumed by `random.sample` are arguments of the embedded
  functions.
* `collections.deque(maxlen=C)` is modelled as the list of the last `C`
  appended elements, in append order.
-/

namespace DQN

/-- One environment step record, the tuple
`(state, action, reward, next_state, done)` appended to `experience_replay`
in `train_agent` (line 176 of `deep_q_learning.py`). -/
structure Transition where
  state : List ℚ
  action : Nat
  reward : ℚ
  next_state : List ℚ
  done : Bool
deriving DecidableEq

instance : Inhabited Transition := ⟨⟨[], 0, 0, [], false⟩⟩

/-- `np.max` on a one-dimensional array: the maximum entry.  NumPy rejects an
empty array; we return `0` there, and every use in the code applies it to a
prediction with `action_size` entries. -/
def npMax : List ℚ → ℚ
  | [] => 0
  | x :: xs => xs.foldl max x

/-- `np.argmax` on a one-dimensional array: the index of the first entry equal
to the maximum (NumPy's documented tie-break: lowest index). -/
def npArgmax (l : List ℚ) : Nat := l.findIdx (fun x => x == npMax l)

/-- `collections.deque(maxlen=C)` contents: the last `C` elements of a list,
in order. -/
def lastN (C : Nat) (l : List α) : List α := (l.reverse.take C).reverse

/-- `deque.append` on a deque with `maxlen = C`: append on the right, evicting
from the left when the capacity is exceeded. -/
def dequeAppend (C : Nat) (buf : List α) (x : α) : List α := lastN C (buf ++ [x])

/-- A whole sequence of `deque.append` calls. -/
def dequePushAll (C : Nat) (buf : List α) (xs : List α) : List α :=
  xs.foldl (dequeAppend C) buf

/-- The epsilon update on line 137:
`self.epsilon = max(self.min_epsilon, self.epsilon*self.epsilon_decay)`. -/
def decayEpsilon (min_epsilon epsilon_decay epsilon : ℚ) : ℚ :=
  max min_epsilon (epsilon * epsilon_decay)

/-- Keras layer activations used by `_build_model`. -/
inductive Activation where
  | relu : Activation
  | linear : Activation
deriving DecidableEq

/-- A `Dense` layer as added by `_build_model`: its width, its optional
`input_dim`, and its activation. -/
structure Layer where
  units : Nat
  input_dim : Option Nat
  activation : Activation
deriving DecidableEq

/-- `DQNAgent._build_model` (lines 67-83): four hidden `Dense(32, relu)`
layers, two more only when `num_layers == 5`, then the linear output layer of
width `action_size`.  Any other `num_layers` value silently gets the base
architecture; no branch raises. -/
def build_model (state_size action_size num_layers : Nat) : List Layer :=
  [⟨32, some state_size, .relu⟩, ⟨32, none, .relu⟩, ⟨32, none, .relu⟩,
    ⟨32, none, .relu⟩]
  ++ (if num_layers = 5 then [⟨32, none, .relu⟩, ⟨32, none, .relu⟩] else [])
  ++ [⟨action_size, none, .linear⟩]

/-- `DQNAgent._sample_action` (lines 85-93): with `u` the value drawn by
`random.uniform(0, 1)` and `randomAction` the value `env.action_space.sample()`
would return, choose the random action when `u < epsilon`, otherwise the
argmax of the online model's prediction. -/
def sample_action (epsilon u : ℚ) (randomAction : Nat)
    (predict : List ℚ → List ℚ) (state : List ℚ) : Nat :=
  if u < epsilon then randomAction else npArgmax (predict state)

/-- Index selection of `random.sample(population, k)`: draw `k` indices
without replacement from the pool, the randomness being the stream `rand`
(each draw picks position `r % pool.length` of the remaining pool). -/
def samplePick : List Nat → List Nat → Nat → List Nat
  | _, _, 0 => []
  | _, [], _ + 1 => []
  | rand, p :: ps, k + 1 =>
    (p :: ps).getD (rand.headD 0 % (p :: ps).length) 0 ::
      samplePick rand.tail
        ((p :: ps).eraseIdx (rand.headD 0 % (p :: ps).length)) k

/-- Error raised by `random.sample` when the requested size exceeds the
population (a `ValueError` in Python; the specification's error taxonomy
names this condition `InsufficientDataError`). -/
inductive SampleError where
  | InsufficientDataError : SampleError
deriving DecidableEq

/-- The elements selected by `random.sample(buf, k)` for a given random
stream: the picked positions of `buf`, in pick order. -/
def sampledBatch (rand : List Nat) (buf : List Transition) (k : Nat) :
    List Transition :=
  (samplePick rand (List.range buf.length) k).map (fun i => buf.getD i default)

/-- `DQNAgent._sample_batch` (lines 95-99): `random.sample` on the replay
deque, which raises when `batch_size` exceeds the number of stored
transitions and otherwise returns `batch_size` distinct elements. -/
def sample_batch (rand : List Nat) (experience_replay : List Transition)
    (batch_size : Nat) : Except SampleError (List Transition) :=
  if batch_size ≤ experience_replay.length then
    .ok (sampledBatch rand experience_replay batch_size)
  else .error .InsufficientDataError

/-- The per-transition TD target of `_replay` (lines 113-117): the raw reward
on a terminal transition, otherwise
`reward + gamma * np.max(target_model.predict(next_state)[0])`. -/
def tdTarget (gamma : ℚ) (predictTarget : List ℚ → List ℚ) (t : Transition) :
    ℚ :=
  if t.done then t.reward
  else t.reward + gamma * npMax (predictTarget t.next_state)

/-- The fitted row of `_replay` (lines 120-121):
`target_f = q_value_model.predict(state)` with `target_f[0][action]`
overwritten to the TD target. -/
def target_f (gamma : ℚ) (predictTarget predictOnline : List ℚ → List ℚ)
    (t : Transition) : List ℚ :=
  (predictOnline t.state).set t.action (tdTarget gamma predictTarget t)

/-- The constructor arguments of the agent that the embedded functions read
(a subset of the `__init__` parameters; the learning rate and TensorBoard
wiring play no role in the claims). -/
structure AgentCfg where
  gamma : ℚ
  min_epsilon : ℚ
  epsilon_decay : ℚ
  experience_replay_size : Nat
  steps_update_target_model : Nat

/-- The mutable state the training code touches: `epsilon`, the replay deque,
the two models' weights (of opaque type `W`), and the two step counters that
`train_agent` keeps as locals.  `fit_count` instruments how many
`q_value_model.fit` calls have been issued. -/
structure AgentState (W : Type) where
  epsilon : ℚ
  experience_replay : List Transition
  q_value_model : W
  target_model : W
  fit_count : Nat
  steps_till_update : Nat
  total_steps : Nat

/-- `DQNAgent._replay` (lines 101-137): return unchanged while the deque
holds at most `batch_size` transitions; otherwise sample a minibatch, build
the target rows, issue one `fit` call on the online model, and decay
`epsilon` once. -/
def replay {W : Type} (cfg : AgentCfg) (predict : W → List ℚ → List ℚ)
    (fit : W → List (List ℚ) → List (List ℚ) → W) (rand : List Nat)
    (batch_size : Nat) (st : AgentState W) : AgentState W :=
  if st.experience_replay.length ≤ batch_size then st
  else
    let minibatch := sampledBatch rand st.experience_replay batch_size
    let states_in_batch := minibatch.map (fun t => t.state)
    let target_in_batch := minibatch.map
      (target_f cfg.gamma (predict st.target_model) (predict st.q_value_model))
    { st with
        q_value_model := fit st.q_value_model states_in_batch target_in_batch
        fit_count := st.fit_count + 1
        epsilon := decayEpsilon cfg.min_epsilon cfg.epsilon_decay st.epsilon }

/-- One iteration of the inner loop of `train_agent` (lines 165-194), after
the environment returned `(next_state, reward, done)` for the chosen
`action`: append the transition, then either stop the episode (`done`) or
run `_replay`, the target-sync check, and the counter increments.  The
returned `Bool` is `false` exactly when the episode `break`s. -/
def trainStep {W : Type} (cfg : AgentCfg) (predict : W → List ℚ → List ℚ)
    (fit : W → List (List ℚ) → List (List ℚ) → W) (rand : List Nat)
    (batch_size : Nat) (st : AgentState W) (state : List ℚ) (action : Nat)
    (next_state : List ℚ) (reward : ℚ) (done : Bool) : AgentState W × Bool :=
  let t : Transition := ⟨state, action, reward, next_state, done⟩
  let st1 := { st with
    experience_replay := dequeAppend cfg.experience_replay_size st.experience_replay t }
  if done then (st1, false)
  else
    let st2 := replay cfg predict fit rand batch_size st1
    let st3 :=
      if st2.steps_till_update % cfg.steps_update_target_model = 0 then
        { st2 with target_model := st2.q_value_model, steps_till_update := 1 }
      else st2
    ({ st3 with
        steps_till_update := st3.steps_till_update + 1
        total_steps := st3.total_steps + 1 }, true)

/-- The target-sync bookkeeping of one non-terminal step (lines 188-193),
isolated on the counter `steps_till_update`: whether a sync fires
(`steps_till_update % steps_update_target_model == 0`), and the new counter
(reset to `1` on a sync, then incremented). -/
def syncStep (steps_update_target_model c : Nat) : Bool × Nat :=
  let synced := decide (c % steps_update_target_model = 0)
  (synced, (if synced then 1 else c) + 1)

/-- The sync flags of `n` consecutive non-terminal environment steps,
starting from counter value `c` (`train_agent` initialises
`steps_till_update = 1` on line 157). -/
def syncFlags (steps_update_target_model : Nat) : Nat → Nat → List Bool
  | _, 0 => []
  | c, n + 1 =>
    (syncStep steps_update_target_model c).1 ::
      syncFlags steps_update_target_model (syncStep steps_update_target_model c).2 n

/-- The one error construction can raise: `collections.deque` rejects a
negative `maxlen` with a `ValueError`. -/
inductive InitError where
  | ValueError : InitError
deriving DecidableEq

/-- The full argument list of `DQNAgent.__init__` (lines 26-35). -/
structure DQNAgentArgs where
  gamma : ℚ
  epsilon : ℚ
  min_epsilon : ℚ
  epsilon_decay : ℚ
  learning_rate : ℚ
  experience_replay_size : Int
  steps_update_target_model : Nat
  num_layers : Nat
deriving DecidableEq

/-- `DQNAgent.__init__` (lines 26-64) as far as configuration handling goes:
the body performs no validation of any argument and only stores them; the
only failing construction is `deque(maxlen=experience_replay_size)` with a
negative size, which raises `ValueError`. -/
def initAgent (a : DQNAgentArgs) : Except InitError (AgentCfg × ℚ) :=
  if a.experience_replay_size < 0 then .error .ValueError
  else
    .ok (⟨a.gamma, a.min_epsilon, a.epsilon_decay,
      a.experience_replay_size.toNat, a.steps_update_target_model⟩, a.epsilon)

/-! ### Helper lemmas about `npMax` and `npArgmax` -/

theorem self_le_foldl_max (a : ℚ) (l : List ℚ) : a ≤ l.foldl max a := by
  induction l generalizing a with
  | nil => exact le_refl a
  | cons x xs ih => exact le_trans (le_max_left a x) (ih (max a x))

theorem le_foldl_max_of_mem {x : ℚ} {l : List ℚ} (a : ℚ) (h : x ∈ l) :
    x ≤ l.foldl max a := by
  induction l generalizing a with
  | nil => cases h
  | cons y ys ih =>
    rcases List.mem_cons.mp h with rfl | hx
    · exact le_trans (le_max_right a x) (self_le_foldl_max (max a x) ys)
    · exact ih (max a y) hx

theorem foldl_max_mem (l : List ℚ) (a : ℚ) :
    l.foldl max a = a ∨ l.foldl max a ∈ l := by
  induction l generalizing a with
  | nil => exact Or.inl rfl
  | cons x xs ih =>
    rcases ih (max a x) with h | h
    · rcases max_choice a x with h2 | h2
      · exact Or.inl (by rw [List.foldl_cons, h, h2])
      · exact Or.inr (by rw [List.foldl_cons, h, h2]; exact List.mem_cons_self x xs)
    · exact Or.inr (List.mem_cons_of_mem x h)

theorem npMax_mem {l : List ℚ} (h : l ≠ []) : npMax l ∈ l := by
  match l, h with
  | x :: xs, _ =>
    have hdef : npMax (x :: xs) = xs.foldl max x := rfl
    rw [hdef]
    rcases foldl_max_mem xs x with h2 | h2
    · rw [h2]; exact List.mem_cons_self x xs
    · exact List.mem_cons_of_mem x h2

theorem le_npMax {l : List ℚ} {x : ℚ} (h : x ∈ l) : x ≤ npMax l := by
  match l, h with
  | y :: ys, h =>
    rcases List.mem_cons.mp h with rfl | hx
    · exact self_le_foldl_max x ys
    · exact le_foldl_max_of_mem y hx

theorem npArgmax_lt_length {l : List ℚ} (h : l ≠ []) : npArgmax l < l.length :=
  List.findIdx_lt_length_of_exists ⟨npMax l, npMax_mem h, by simp⟩

theorem getElem_npArgmax {l : List ℚ} (h : npArgmax l < l.length) :
    l[npArgmax l] = npMax l := by
  have := List.findIdx_getElem (w := h)
  simpa [npArgmax] using this

theorem getElem_lt_npMax_of_lt_npArgmax {l : List ℚ} {i : Nat}
    (hi : i < l.length) (hlt : i < npArgmax l) : l[i] < npMax l := by
  have hne : (l[i] == npMax l) = false := List.not_of_lt_findIdx hlt
  exact lt_of_le_of_ne (le_npMax (List.getElem_mem hi)) (by simpa using hne)

/-! ### Claims about `_build_model` and `_sample_action` -/

/-- C10: for every `num_layers` other than `5` (the documented `3` included),
`_build_model` silently builds the base architecture — four hidden
`Dense(32, relu)` layers plus the linear output layer, the same network as
`num_layers = 3` — and no branch raises for an unsupported depth selector
(`build_model` is a total function). -/
theorem build_model_ignores_other_depths (state_size action_size n : Nat)
    (h : n ≠ 5) :
    build_model state_size action_size n = build_model state_size action_size 3 ∧
    build_model state_size action_size n =
      [⟨32, some state_size, .relu⟩, ⟨32, none, .relu⟩, ⟨32, none, .relu⟩,
        ⟨32, none, .relu⟩, ⟨action_size, none, .linear⟩] := by
  constructor <;> simp [build_model, h]

/-- Witness for C10 at `num_layers = 7`. -/
theorem build_model_ignores_other_depths_witness :
    build_model 4 2 7 = build_model 4 2 3 ∧
    build_model 4 2 7 =
      [⟨32, some 4, .relu⟩, ⟨32, none, .relu⟩, ⟨32, none, .relu⟩,
        ⟨32, none, .relu⟩, ⟨2, none, .linear⟩] :=
  build_model_ignores_other_depths 4 2 7 (by decide)

/-- C9: in `_sample_action`, when the uniform draw `u` satisfies
`u < epsilon` the environment's random action is returned and the online
approximator is never queried (the result is the same for every `predict`
function); when `u ≥ epsilon` the returned action is `np.argmax` of the
online prediction, which is an index of a maximal entry such that every
strictly smaller index holds a strictly smaller value (lowest-index
tie-break). -/
theorem sample_action_epsilon_greedy (epsilon u : ℚ) (randomAction : Nat)
    (predict : List ℚ → List ℚ) (state : List ℚ) :
    (u < epsilon →
      sample_action epsilon u randomAction predict state = randomAction ∧
      ∀ predict' : List ℚ → List ℚ,
        sample_action epsilon u randomAction predict' state =
          sample_action epsilon u randomAction predict state) ∧
    (epsilon ≤ u →
      sample_action epsilon u randomAction predict state =
        npArgmax (predict state) ∧
      (predict state ≠ [] →
        npArgmax (predict state) < (predict state).length ∧
        (∀ h : npArgmax (predict state) < (predict state).length,
          (predict state)[npArgmax (predict state)] = npMax (predict state)) ∧
        (∀ x ∈ predict state, x ≤ npMax (predict state)) ∧
        (∀ i, ∀ hi : i < (predict state).length, i < npArgmax (predict state) →
          (predict state)[i] < npMax (predict state)))) := by
  constructor
  · intro hu
    constructor
    · simp [sample_action, hu]
    · intro predict'
      simp [sample_action, hu]
  · intro hu
    have hnot : ¬u < epsilon := not_lt.mpr hu
    refine ⟨by simp [sample_action, hnot], ?_⟩
    intro hne
    refine ⟨npArgmax_lt_length hne, ?_, ?_, ?_⟩
    · intro h
      exact getElem_npArgmax h
    · intro x hx
      exact le_npMax hx
    · intro i hi hlt
      exact getElem_lt_npMax_of_lt_npArgmax hi hlt

/-- Witness for C9: with `epsilon = 1/2`, a draw `u = 1/4` returns the
environment sample `9`; a draw `u = 3/4` returns the argmax (index 1, the
first maximal entry of `[1, 3, 3, 0]`). -/
theorem sample_action_epsilon_greedy_witness :
    sample_action (1/2) (1/4) 9 (fun _ => [1, 3, 3, 0]) [0] = 9 ∧
    sample_action (1/2) (3/4) 9 (fun _ => [1, 3, 3, 0]) [0] =
      npArgmax ((fun _ : List ℚ => [(1 : ℚ), 3, 3, 0]) [0]) :=
  ⟨((sample_action_epsilon_greedy (1/2) (1/4) 9 (fun _ => [1, 3, 3, 0])
      [0]).1 (by norm_num)).1,
    ((sample_action_epsilon_greedy (1/2) (3/4) 9 (fun _ => [1, 3, 3, 0])
      [0]).2 (by norm_num)).1⟩

/-! ### Claims about `_replay` -/

/-- C1: the TD target of a sampled transition is the raw reward when `done`
(for every discount and every target network), and
`reward + gamma * max` of the target approximator's prediction on the next
state otherwise (with `npMax` really the maximum: a member bounding every
entry); the fitted row is the online prediction with exactly the entry at
`action` overwritten to the target, all other entries and the length
unchanged; and the batched `fit` issued by `_replay` receives exactly those
rows, built from the target model's and the online model's predictions. -/
theorem replay_td_target_and_fit_row (gamma : ℚ)
    (pT pO : List ℚ → List ℚ) (t : Transition) :
    (t.done = true → ∀ (gamma' : ℚ) (pT' : List ℚ → List ℚ),
      tdTarget gamma' pT' t = t.reward) ∧
    (t.done = false →
      tdTarget gamma pT t = t.reward + gamma * npMax (pT t.next_state) ∧
      (pT t.next_state ≠ [] →
        npMax (pT t.next_state) ∈ pT t.next_state ∧
        ∀ x ∈ pT t.next_state, x ≤ npMax (pT t.next_state))) ∧
    (t.action < (pO t.state).length →
      (target_f gamma pT pO t).getD t.action 0 = tdTarget gamma pT t) ∧
    (∀ i, i ≠ t.action →
      (target_f gamma pT pO t).getD i 0 = (pO t.state).getD i 0) ∧
    (target_f gamma pT pO t).length = (pO t.state).length ∧
    (∀ (W : Type) (cfg : AgentCfg) (predict : W → List ℚ → List ℚ)
        (fit : W → List (List ℚ) → List (List ℚ) → W) (rand : List Nat)
        (batch_size : Nat) (st : AgentState W),
      batch_size < st.experience_replay.length →
      (replay cfg predict fit rand batch_size st).q_value_model =
        fit st.q_value_model
          ((sampledBatch rand st.experience_replay batch_size).map
            (fun tr => tr.state))
          ((sampledBatch rand st.experience_replay batch_size).map
            (target_f cfg.gamma (predict st.target_model)
              (predict st.q_value_model)))) := by
  refine ⟨?_, ?_, ?_, ?_, ?_, ?_⟩
  · intro hd gamma' pT'
    simp [tdTarget, hd]
  · intro hd
    refine ⟨by simp [tdTarget, hd], ?_⟩
    intro hne
    exact ⟨npMax_mem hne, fun x hx => le_npMax hx⟩
  · intro h
    simp [target_f, List.getD_eq_getElem?_getD, List.getElem?_set_self, h]
  · intro i hne
    simp [target_f, List.getD_eq_getElem?_getD,
      List.getElem?_set_ne (Ne.symm hne)]
  · simp [target_f]
  · intro W cfg predict fit rand batch_size st h
    unfold replay
    rw [if_neg (not_le.mpr h)]

/-- Witness for C1 on concrete transitions: a terminal transition with
reward `5` gets TD target `5` whatever the discount and target network; a
non-terminal one with reward `1`, `gamma = 19/20` and target prediction
`[2, 0]` gets `1 + (19/20) * npMax [2, 0]`; the fitted row over online
prediction `[3, 4]` carries the target at index `1` and keeps entry `0`. -/
theorem replay_td_target_and_fit_row_witness :
    tdTarget 1 (fun _ => [(7 : ℚ)]) ⟨[0], 0, 5, [1], true⟩ = 5 ∧
    tdTarget (19/20) (fun _ => [(2 : ℚ), 0]) ⟨[0, 1], 1, 1, [2], false⟩ =
      1 + (19/20) * npMax [(2 : ℚ), 0] ∧
    (target_f (19/20) (fun _ => [(2 : ℚ), 0]) (fun _ => [(3 : ℚ), 4])
      ⟨[0, 1], 1, 1, [2], false⟩).getD 1 0 =
      tdTarget (19/20) (fun _ => [(2 : ℚ), 0]) ⟨[0, 1], 1, 1, [2], false⟩ ∧
    (target_f (19/20) (fun _ => [(2 : ℚ), 0]) (fun _ => [(3 : ℚ), 4])
      ⟨[0, 1], 1, 1, [2], false⟩).getD 0 0 = 3 :=
  ⟨(replay_td_target_and_fit_row 1 (fun _ => [(7 : ℚ)]) (fun _ => [(7 : ℚ)])
      ⟨[0], 0, 5, [1], true⟩).1 rfl 1 (fun _ => [(7 : ℚ)]),
    ((replay_td_target_and_fit_row (19/20) (fun _ => [(2 : ℚ), 0])
      (fun _ => [(3 : ℚ), 4]) ⟨[0, 1], 1, 1, [2], false⟩).2.1 rfl).1,
    (replay_td_target_and_fit_row (19/20) (fun _ => [(2 : ℚ), 0])
      (fun _ => [(3 : ℚ), 4]) ⟨[0, 1], 1, 1, [2], false⟩).2.2.1 (by decide),
    (replay_td_target_and_fit_row (19/20) (fun _ => [(2 : ℚ), 0])
      (fun _ => [(3 : ℚ), 4]) ⟨[0, 1], 1, 1, [2], false⟩).2.2.2.1 0
      (by decide)⟩

/-- C3: `_replay` with at most `batch_size` stored transitions returns the
state unchanged (no sampling, no fit — `fit_count` untouched — no epsilon
change); with more than `batch_size` stored, it applies the epsilon decay
exactly once and issues exactly one fit call, leaving the buffer and the
counters alone. -/
theorem replay_warmup_noop_and_single_decay {W : Type} (cfg : AgentCfg)
    (predict : W → List ℚ → List ℚ)
    (fit : W → List (List ℚ) → List (List ℚ) → W) (rand : List Nat)
    (batch_size : Nat) (st : AgentState W) :
    (st.experience_replay.length ≤ batch_size →
      replay cfg predict fit rand batch_size st = st) ∧
    (batch_size < st.experience_replay.length →
      (replay cfg predict fit rand batch_size st).epsilon =
        decayEpsilon cfg.min_epsilon cfg.epsilon_decay st.epsilon ∧
      (replay cfg predict fit rand batch_size st).fit_count =
        st.fit_count + 1 ∧
      (replay cfg predict fit rand batch_size st).experience_replay =
        st.experience_replay ∧
      (replay cfg predict fit rand batch_size st).steps_till_update =
        st.steps_till_update ∧
      (replay cfg predict fit rand batch_size st).total_steps =
        st.total_steps) := by
  constructor
  · intro h
    unfold replay
    rw [if_pos h]
  · intro h
    unfold replay
    rw [if_neg (not_le.mpr h)]
    exact ⟨rfl, rfl, rfl, rfl, rfl⟩

/-- Witness for C3: with one stored transition, `batch_size = 1` is a no-op
and `batch_size = 0` decays epsilon once and issues one fit. -/
theorem replay_warmup_noop_and_single_decay_witness :
    replay (W := Unit) ⟨19/20, 1/100, 199/200, 2000, 32⟩
      (fun _ _ => []) (fun w _ _ => w) [] 1
      ⟨1, [default], (), (), 0, 1, 1⟩ = ⟨1, [default], (), (), 0, 1, 1⟩ ∧
    (replay (W := Unit) ⟨19/20, 1/100, 199/200, 2000, 32⟩
      (fun _ _ => []) (fun w _ _ => w) [] 0
      ⟨1, [default], (), (), 0, 1, 1⟩).epsilon =
      decayEpsilon (1/100) (199/200) 1 ∧
    (replay (W := Unit) ⟨19/20, 1/100, 199/200, 2000, 32⟩
      (fun _ _ => []) (fun w _ _ => w) [] 0
      ⟨1, [default], (), (), 0, 1, 1⟩).fit_count = 0 + 1 :=
  ⟨(replay_warmup_noop_and_single_decay ⟨19/20, 1/100, 199/200, 2000, 32⟩
      (fun _ _ => []) (fun w _ _ => w) [] 1
      ⟨1, [default], (), (), 0, 1, 1⟩).1 (by decide),
    ((replay_warmup_noop_and_single_decay ⟨19/20, 1/100, 199/200, 2000, 32⟩
      (fun _ _ => []) (fun w _ _ => w) [] 0
      ⟨1, [default], (), (), 0, 1, 1⟩).2 (by decide)).1,
    ((replay_warmup_noop_and_single_decay ⟨19/20, 1/100, 199/200, 2000, 32⟩
      (fun _ _ => []) (fun w _ _ => w) [] 0
      ⟨1, [default], (), (), 0, 1, 1⟩).2 (by decide)).2.1⟩

/-! ### Claim about the terminal-step behaviour of `train_agent` -/

/-- C7: on a step where the environment reports `done`, the inner loop of
`train_agent` still appends the transition to the replay deque but returns
with the episode stopped (`break`): no `_replay` call (epsilon, fit count,
online weights unchanged), no target sync (target weights and
`steps_till_update` unchanged), and `total_steps` not advanced. -/
theorem train_terminal_step_skips_learning {W : Type} (cfg : AgentCfg)
    (predict : W → List ℚ → List ℚ)
    (fit : W → List (List ℚ) → List (List ℚ) → W) (rand : List Nat)
    (batch_size : Nat) (st : AgentState W) (state : List ℚ) (action : Nat)
    (next_state : List ℚ) (reward : ℚ) :
    (trainStep cfg predict fit rand batch_size st state action next_state
      reward true).2 = false ∧
    (trainStep cfg predict fit rand batch_size st state action next_state
      reward true).1.experience_replay =
      dequeAppend cfg.experience_replay_size st.experience_replay
        ⟨state, action, reward, next_state, true⟩ ∧
    (trainStep cfg predict fit rand batch_size st state action next_state
      reward true).1.epsilon = st.epsilon ∧
    (trainStep cfg predict fit rand batch_size st state action next_state
      reward true).1.fit_count = st.fit_count ∧
    (trainStep cfg predict fit rand batch_size st state action next_state
      reward true).1.q_value_model = st.q_value_model ∧
    (trainStep cfg predict fit rand batch_size st state action next_state
      reward true).1.target_model = st.target_model ∧
    (trainStep cfg predict fit rand batch_size st state action next_state
      reward true).1.steps_till_update = st.steps_till_update ∧
    (trainStep cfg predict fit rand batch_size st state action next_state
      reward true).1.total_steps = st.total_steps :=
  ⟨rfl, rfl, rfl, rfl, rfl, rfl, rfl, rfl⟩

/-! ### The target-sync cadence (claim C2) -/

theorem replay_steps_till_update {W : Type} (cfg : AgentCfg)
    (predict : W → List ℚ → List ℚ)
    (fit : W → List (List ℚ) → List (List ℚ) → W) (rand : List Nat)
    (batch_size : Nat) (st : AgentState W) :
    (replay cfg predict fit rand batch_size st).steps_till_update =
      st.steps_till_update := by
  unfold replay
  split
  · rfl
  · rfl

/-- C2 evidence: the sync counter starts at 1 and, on every non-terminal
step, a sync fires when `steps_till_update % steps_update_target_model == 0`,
after which the counter is reset to `1` and — like on every step —
incremented (this is exactly what `trainStep` does, second conjunct).
Evaluated at `steps_update_target_model = 2` over five consecutive
non-terminal steps, syncs fire on steps 2, 3, 4 and 5: after the first sync
they are `interval - 1` steps apart, not every `sync_interval` steps, and
the counter is reset to 1, not 0. -/
theorem sync_cadence_off_by_one :
    syncFlags 2 1 5 = [false, true, true, true, true] ∧
    ∀ (W : Type) (cfg : AgentCfg) (predict : W → List ℚ → List ℚ)
      (fit : W → List (List ℚ) → List (List ℚ) → W) (rand : List Nat)
      (bs : Nat) (st : AgentState W) (s : List ℚ) (a : Nat) (ns : List ℚ)
      (r : ℚ),
      (trainStep cfg predict fit rand bs st s a ns r false).1.steps_till_update
        = (syncStep cfg.steps_update_target_model st.steps_till_update).2 := by
  constructor
  · rfl
  · intro W cfg predict fit rand bs st s a ns r
    simp only [trainStep, syncStep]
    by_cases h :
        st.steps_till_update % cfg.steps_update_target_model = 0 <;>
      simp [h, replay_steps_till_update]

/-! ### Epsilon decay (claim C6) -/

/-- C6 counterexample: the hypotheses of the claim
(`0 ≤ decay_rate ≤ 1`, `epsilon ≥ min_epsilon`) hold at
`min_epsilon = -2`, `decay_rate = 1/2`, `epsilon = -1`, yet one `decay()`
application (line 137) strictly increases epsilon: `max(-2, -1·1/2) = -1/2`. -/
theorem epsilon_decay_not_monotone_cex :
    ((0 : ℚ) ≤ 1/2 ∧ (1/2 : ℚ) ≤ 1 ∧ (-2 : ℚ) ≤ -1) ∧
    decayEpsilon (-2) (1/2) (-1) = -1/2 ∧
    ¬ decayEpsilon (-2) (1/2) (-1) ≤ -1 := by
  refine ⟨⟨by norm_num, by norm_num, by norm_num⟩, ?_, ?_⟩
  · rw [decayEpsilon, show ((-1 : ℚ) * (1/2)) = -1/2 by norm_num]
    exact max_eq_right (by norm_num)
  · rw [decayEpsilon, show ((-1 : ℚ) * (1/2)) = -1/2 by norm_num]
    rw [max_eq_right (by norm_num : (-2 : ℚ) ≤ -1/2)]
    norm_num

/-- C6 amended: with the additional hypothesis `0 ≤ min_epsilon` (true of
the defaults: `min_epsilon = 0.01`), any sequence of `decay()` applications
is monotone non-increasing and never drops below `min_epsilon`. -/
theorem epsilon_decay_monotone_floor (m d e : ℚ) (hd0 : 0 ≤ d) (hd1 : d ≤ 1)
    (hm0 : 0 ≤ m) (hme : m ≤ e) :
    ∀ n : Nat, (decayEpsilon m d)^[n + 1] e ≤ (decayEpsilon m d)^[n] e ∧
      m ≤ (decayEpsilon m d)^[n] e := by
  have key : ∀ x : ℚ, m ≤ x → decayEpsilon m d x ≤ x ∧ m ≤ decayEpsilon m d x := by
    intro x hx
    have hx0 : 0 ≤ x := le_trans hm0 hx
    refine ⟨max_le hx ?_, le_max_left m (x * d)⟩
    calc x * d ≤ x * 1 := mul_le_mul_of_nonneg_left hd1 hx0
      _ = x := mul_one x
  intro n
  induction n with
  | zero =>
    simp only [Function.iterate_one, Function.iterate_zero, id]
    exact ⟨(key e hme).1, hme⟩
  | succ k ih =>
    have hk1 : m ≤ (decayEpsilon m d)^[k + 1] e := by
      rw [Function.iterate_succ_apply']
      exact (key _ ih.2).2
    refine ⟨?_, hk1⟩
    rw [Function.iterate_succ_apply' (f := decayEpsilon m d) (n := k + 1)]
    exact (key _ hk1).1

/-- Witness for the amended C6 at `min_epsilon = 0`, `decay_rate = 1/2`,
`epsilon = 1`, after one decay. -/
theorem epsilon_decay_monotone_floor_witness :
    (decayEpsilon 0 (1/2))^[2] 1 ≤ (decayEpsilon 0 (1/2))^[1] 1 ∧
    (0 : ℚ) ≤ (decayEpsilon 0 (1/2))^[1] 1 :=
  epsilon_decay_monotone_floor 0 (1/2) 1 (by norm_num) (by norm_num)
    (by norm_num) (by norm_num) 1

/-! ### Configuration handling (claim C8) -/

/-- C8 counterexample: a configuration with non-positive replay capacity
(`0`), `epsilon = 2` outside `[0, 1]` and `min_epsilon = 3 > epsilon`
constructs successfully — `__init__` validates nothing and no
`InvalidConfigurationError` exists anywhere in the code. -/
theorem init_accepts_invalid_config :
    initAgent ⟨19/20, 2, 3, 199/200, 1/1000, 0, 32, 3⟩ =
      .ok (⟨19/20, 3, 199/200, 0, 32⟩, 2) := rfl

/-- C8 amended: construction fails only on a negative replay capacity (the
`ValueError` that `deque(maxlen=...)` raises); every other configuration —
non-positive capacity `0`, any epsilon, `min_epsilon > epsilon`, any counts —
is accepted unvalidated, and `train_agent`'s arguments are likewise never
validated (its embedding `trainStep` is a total function). -/
theorem initAgent_fails_iff_negative_capacity (a : DQNAgentArgs) :
    (initAgent a = .error .ValueError ↔ a.experience_replay_size < 0) ∧
    (¬ a.experience_replay_size < 0 →
      initAgent a = .ok (⟨a.gamma, a.min_epsilon, a.epsilon_decay,
        a.experience_replay_size.toNat, a.steps_update_target_model⟩,
        a.epsilon)) := by
  refine ⟨⟨?_, ?_⟩, ?_⟩
  · intro h
    by_contra hneg
    unfold initAgent at h
    rw [if_neg hneg] at h
    exact Except.noConfusion h
  · intro h
    unfold initAgent
    rw [if_pos h]
  · intro h
    unfold initAgent
    rw [if_neg h]

/-- Witness for the amended C8: the default-like configuration with capacity
2000 constructs successfully. -/
theorem initAgent_fails_iff_negative_capacity_witness :
    initAgent ⟨19/20, 1, 1/100, 199/200, 1/1000, 2000, 32, 3⟩ =
      .ok (⟨19/20, 1/100, 199/200, 2000, 32⟩, 1) :=
  (initAgent_fails_iff_negative_capacity
    ⟨19/20, 1, 1/100, 199/200, 1/1000, 2000, 32, 3⟩).2 (by decide)

/-! ### The replay deque (claim C4) -/

theorem lastN_eq_drop (C : Nat) (l : List α) :
    lastN C l = l.drop (l.length - C) := by
  rw [lastN, ← List.rtake_eq_reverse_take_reverse, List.rtake]

theorem lastN_length (C : Nat) (l : List α) :
    (lastN C l).length = min C l.length := by
  simp [lastN]

theorem lastN_append_left (C : Nat) (l m : List α) :
    lastN C (lastN C l ++ m) = lastN C (l ++ m) := by
  unfold lastN
  rw [List.reverse_append, List.reverse_reverse, List.reverse_append]
  congr 1
  rw [List.take_append_eq_append_take, List.take_append_eq_append_take,
    List.take_take]
  congr 1
  rw [min_eq_left (Nat.sub_le C _)]

theorem dequePushAll_lastN (C : Nat) (l xs : List α) :
    dequePushAll C (lastN C l) xs = lastN C (l ++ xs) := by
  induction xs generalizing l with
  | nil => simp [dequePushAll]
  | cons x xs ih =>
    have h1 : dequeAppend C (lastN C l) x = lastN C (l ++ [x]) := by
      rw [dequeAppend, lastN_append_left]
    calc dequePushAll C (lastN C l) (x :: xs)
        = dequePushAll C (dequeAppend C (lastN C l) x) xs := rfl
      _ = dequePushAll C (lastN C (l ++ [x])) xs := by rw [h1]
      _ = lastN C ((l ++ [x]) ++ xs) := ih (l ++ [x])
      _ = lastN C (l ++ x :: xs) := by simp

theorem dequePushAll_nil_eq (C : Nat) (xs : List α) :
    dequePushAll C [] xs = lastN C xs := by
  have h := dequePushAll_lastN C [] xs
  simpa [lastN] using h

/-- C4: appending more than `C` transitions to the deque of `maxlen = C`
leaves exactly `C` stored; the contents are exactly the last `C` appended
transitions in append order (equivalently, the original sequence with its
oldest elements dropped — FIFO eviction); and at no intermediate point does
the size exceed `C` (`dequeAppend` is total, so appends always succeed). -/
theorem replay_buffer_fifo (C : Nat) (xs : List Transition)
    (h : C < xs.length) :
    (dequePushAll C [] xs).length = C ∧
    dequePushAll C [] xs = lastN C xs ∧
    dequePushAll C [] xs = xs.drop (xs.length - C) ∧
    ∀ n : Nat, (dequePushAll C [] (xs.take n)).length ≤ C := by
  have hmain := dequePushAll_nil_eq C xs
  refine ⟨?_, hmain, ?_, ?_⟩
  · rw [hmain, lastN_length, min_eq_left (le_of_lt h)]
  · rw [hmain, lastN_eq_drop]
  · intro n
    rw [dequePushAll_nil_eq, lastN_length]
    exact min_le_left _ _

/-- Witness for C4: a capacity-1 deque receiving two distinct transitions
keeps only the later one. -/
theorem replay_buffer_fifo_witness :
    (dequePushAll 1 []
      [(⟨[0], 0, 0, [0], false⟩ : Transition), ⟨[1], 1, 1, [1], true⟩]).length
      = 1 ∧
    dequePushAll 1 []
      [(⟨[0], 0, 0, [0], false⟩ : Transition), ⟨[1], 1, 1, [1], true⟩] =
      lastN 1 [(⟨[0], 0, 0, [0], false⟩ : Transition), ⟨[1], 1, 1, [1], true⟩] ∧
    (dequePushAll 1 []
      ([(⟨[0], 0, 0, [0], false⟩ : Transition),
        ⟨[1], 1, 1, [1], true⟩].take 1)).length ≤ 1 :=
  ⟨(replay_buffer_fifo 1
      [⟨[0], 0, 0, [0], false⟩, ⟨[1], 1, 1, [1], true⟩] (by decide)).1,
    (replay_buffer_fifo 1
      [⟨[0], 0, 0, [0], false⟩, ⟨[1], 1, 1, [1], true⟩] (by decide)).2.1,
    (replay_buffer_fifo 1
      [⟨[0], 0, 0, [0], false⟩, ⟨[1], 1, 1, [1], true⟩] (by decide)).2.2.2 1⟩

/-! ### Sampling from the replay buffer (claim C5) -/

theorem samplePick_length (rand pool : List Nat) (k : Nat) :
    (samplePick rand pool k).length = min k pool.length := by
  induction k generalizing rand pool with
  | zero => simp [samplePick]
  | succ k ih =>
    cases pool with
    | nil => simp [samplePick]
    | cons p ps =>
      have hi : rand.headD 0 % (p :: ps).length < (p :: ps).length :=
        Nat.mod_lt _ (by simp)
      simp only [samplePick, List.length_cons]
      rw [ih, List.length_eraseIdx]
      have hi2 : rand.headD 0 % (ps.length + 1) < (p :: ps).length := hi
      rw [if_pos hi2]
      simp only [List.length_cons]
      omega

theorem samplePick_mem (rand pool : List Nat) (k : Nat) :
    ∀ x ∈ samplePick rand pool k, x ∈ pool := by
  induction k generalizing rand pool with
  | zero => intro x hx; simp [samplePick] at hx
  | succ k ih =>
    cases pool with
    | nil => intro x hx; simp [samplePick] at hx
    | cons p ps =>
      intro x hx
      have hi : rand.headD 0 % (p :: ps).length < (p :: ps).length :=
        Nat.mod_lt _ (by simp)
      simp only [samplePick, List.mem_cons] at hx
      rcases hx with rfl | hx
      · rw [List.getD_eq_getElem _ _ hi]
        exact List.getElem_mem hi
      · exact (List.eraseIdx_sublist (p :: ps) _).subset (ih _ _ x hx)

theorem samplePick_nodup (rand pool : List Nat) (k : Nat) (h : pool.Nodup) :
    (samplePick rand pool k).Nodup := by
  induction k generalizing rand pool with
  | zero => simp [samplePick]
  | succ k ih =>
    cases pool with
    | nil => simp [samplePick]
    | cons p ps =>
      have hi : rand.headD 0 % (p :: ps).length < (p :: ps).length :=
        Nat.mod_lt _ (by simp)
      simp only [samplePick, List.nodup_cons]
      constructor
      · intro hmem
        have hmem2 := samplePick_mem _ _ _ _ hmem
        rw [List.getD_eq_getElem _ _ hi] at hmem2
        rcases List.mem_eraseIdx_iff_getElem.mp hmem2 with ⟨j, hjlt, hjne, hjeq⟩
        exact hjne (h.getElem_inj_iff.mp hjeq)
      · exact ih _ _ ((List.eraseIdx_sublist (p :: ps) _).nodup h)

/-- C5: `random.sample` on the replay buffer with
`0 < batch_size ≤ size` returns exactly `batch_size` transitions taken at
pairwise-distinct positions of the current contents (so every returned
element is stored, and the draw is without replacement); with
`batch_size > size` it fails with the `InsufficientDataError` of the error
taxonomy (Python's `ValueError`). -/
theorem sample_batch_spec (rand : List Nat) (buf : List Transition)
    (k : Nat) :
    (0 < k → k ≤ buf.length →
      sample_batch rand buf k = .ok (sampledBatch rand buf k) ∧
      (sampledBatch rand buf k).length = k ∧
      (∀ t ∈ sampledBatch rand buf k, t ∈ buf) ∧
      ∃ idxs : List Nat, idxs.Nodup ∧ idxs.length = k ∧
        (∀ i ∈ idxs, i < buf.length) ∧
        sampledBatch rand buf k = idxs.map fun i => buf.getD i default) ∧
    (buf.length < k →
      sample_batch rand buf k = .error .InsufficientDataError) := by
  constructor
  · intro hk0 hkle
    refine ⟨?_, ?_, ?_, ?_⟩
    · unfold sample_batch
      rw [if_pos hkle]
    · unfold sampledBatch
      rw [List.length_map, samplePick_length, List.length_range,
        min_eq_left hkle]
    · intro t ht
      unfold sampledBatch at ht
      rcases List.mem_map.mp ht with ⟨i, hi, rfl⟩
      have hmem := samplePick_mem _ _ _ i hi
      have hlt := List.mem_range.mp hmem
      rw [List.getD_eq_getElem _ _ hlt]
      exact List.getElem_mem hlt
    · refine ⟨samplePick rand (List.range buf.length) k, ?_, ?_, ?_, rfl⟩
      · exact samplePick_nodup _ _ _ (List.nodup_range _)
      · rw [samplePick_length, List.length_range, min_eq_left hkle]
      · intro i hi
        exact List.mem_range.mp (samplePick_mem _ _ _ i hi)
  · intro hlt
    unfold sample_batch
    rw [if_neg (not_le.mpr hlt)]

/-- Witness for C5: from a two-element buffer, sampling one transition
succeeds with one stored element; requesting three fails. -/
theorem sample_batch_spec_witness :
    sample_batch [1] [(⟨[0], 0, 0, [0], false⟩ : Transition),
        ⟨[1], 1, 1, [1], true⟩] 1 =
      .ok (sampledBatch [1] [(⟨[0], 0, 0, [0], false⟩ : Transition),
        ⟨[1], 1, 1, [1], true⟩] 1) ∧
    (sampledBatch [1] [(⟨[0], 0, 0, [0], false⟩ : Transition),
        ⟨[1], 1, 1, [1], true⟩] 1).length = 1 ∧
    sample_batch [1] [(⟨[0], 0, 0, [0], false⟩ : Transition),
        ⟨[1], 1, 1, [1], true⟩] 3 = .error .InsufficientDataError :=
  ⟨((sample_batch_spec [1] [⟨[0], 0, 0, [0], false⟩,
      ⟨[1], 1, 1, [1], true⟩] 1).1 (by decide) (by decide)).1,
    ((sample_batch_spec [1] [⟨[0], 0, 0, [0], false⟩,
      ⟨[1], 1, 1, [1], true⟩] 1).1 (by decide) (by decide)).2.1,
    (sample_batch_spec [1] [⟨[0], 0, 0, [0], false⟩,
      ⟨[1], 1, 1, [1], true⟩] 3).2 (by decide)⟩

end DQN
